import Mathlib

/-!
Shallow embedding of the klawhook webhook relay core
(`src/api/src/routes/webhook.ts`, `src/api/src/auth.ts`, the embedded
`db.ts` prepared statements, and `src/api/src/routes/hooks.ts`).

Modelling conventions:
* timestamps are `Nat` (SQLite `datetime('now')` values, totally ordered);
* machine strings are Lean `String`;
* the SQLite store is a `DB` structure holding the `hooks` and `events`
  tables as lists in insertion order; each prepared statement becomes a
  function on `DB`;
* the platform JSON parser (`JSON.parse`) and the outbound HTTP fetch are
  external collaborators and are passed in as oracle arguments;
* a stored event body is `BodyVal`: either the raw text or the serialized
  truncation-marker object (the JSON string forms of the two are kept as a
  structured sum).
-/

namespace Klawhook

/-- JSON values, as produced by the platform JSON parser. -/
inductive JsonVal where
  | jnull : JsonVal
  | jbool : Bool → JsonVal
  | jnum : Int → JsonVal
  | jstr : String → JsonVal
  | jarr : List JsonVal → JsonVal
  | jobj : List (String × JsonVal) → JsonVal

/-- A stored event body: the raw request text, or the truncation marker
object `\x7b_truncated, _original_size, _preview\x7d` that replaces an
oversized body (webhook.ts lines 54-62). -/
inductive BodyVal where
  | raw : String → BodyVal
  | truncated : Nat → String → BodyVal
deriving DecidableEq

/-- Row of the `hooks` table (db.ts schema / `Hook` interface). -/
structure Hook where
  id : String
  api_key : String
  name : Option String := none
  description : Option String := none
  delivery_method : String := "poll"
  delivery_config : Option String := none
  created_at : Nat := 0
  last_triggered_at : Option Nat := none
  event_count : Nat := 0
deriving DecidableEq

/-- Row of the `events` table (db.ts schema / `Event` interface); headers
and query params are kept structured (they are stored as JSON text of
exactly these mappings). -/
structure Event where
  id : String
  hook_id : String
  method : String
  headers : List (String × String) := []
  body : Option BodyVal := none
  query_params : Option (List (String × String)) := none
  source_ip : Option String := none
  received_at : Nat := 0
  delivered_at : Option Nat := none
deriving DecidableEq

/-- The SQLite database: both tables, rows in insertion order. -/
structure DB where
  hooks : List Hook := []
  events : List Event := []
deriving DecidableEq

/-- `getHook`: `SELECT * FROM hooks WHERE id = ?` (first match). -/
def getHook (hookId : String) (db : DB) : Option Hook :=
  db.hooks.find? (fun h => h.id == hookId)

/-- `createEvent`: `INSERT INTO events ... VALUES (?,...)`. -/
def createEvent (ev : Event) (db : DB) : DB :=
  { db with events := db.events ++ [ev] }

/-- `updateHookTrigger`: sets `last_triggered_at = datetime('now')` and
increments `event_count` for the matching hook id. -/
def updateHookTrigger (hookId : String) (now : Nat) (db : DB) : DB :=
  { db with hooks := db.hooks.map (fun h =>
      if h.id == hookId then
        { h with last_triggered_at := some now, event_count := h.event_count + 1 }
      else h) }

/-- `markEventsDelivered`:
`UPDATE events SET delivered_at = datetime('now') WHERE id = ?`.
The update is unconditional on the current `delivered_at`. -/
def markEventsDelivered (eventId : String) (now : Nat) (db : DB) : DB :=
  { db with events := db.events.map (fun ev =>
      if ev.id == eventId then { ev with delivered_at := some now } else ev) }

/-- `deleteHook`: `DELETE FROM hooks WHERE id = ? AND api_key = ?`,
with the schema's `ON DELETE CASCADE` removing the deleted hooks' events;
returns `result.changes` (rows deleted from `hooks`) and the new store. -/
def deleteHook (hookId apiKey : String) (db : DB) : Nat × DB :=
  let keep : Hook → Bool := fun h => ¬ (h.id == hookId ∧ h.api_key == apiKey)
  let hooks' := db.hooks.filter keep
  let events' := db.events.filter (fun e =>
    ¬ (db.hooks.filter (fun h => ¬ keep h)).any (fun h => h.id == e.hook_id))
  (db.hooks.length - hooks'.length, { hooks := hooks', events := events' })

/-- Ascending order on `received_at` (SQL `ORDER BY received_at ASC`). -/
def recvLE (a b : Event) : Prop := a.received_at ≤ b.received_at

/-- Descending order on `received_at` (SQL `ORDER BY received_at DESC`). -/
def recvGE (a b : Event) : Prop := b.received_at ≤ a.received_at

instance : DecidableRel recvLE := fun a b => Nat.decLe _ _

instance : DecidableRel recvGE := fun a b => Nat.decLe _ _

instance : IsTotal Event recvLE := ⟨fun a b => Nat.le_total a.received_at b.received_at⟩

instance : IsTrans Event recvLE := ⟨fun _ _ _ h h' => Nat.le_trans h h'⟩

instance : IsTotal Event recvGE := ⟨fun a b => Nat.le_total b.received_at a.received_at⟩

instance : IsTrans Event recvGE := ⟨fun _ _ _ h h' => Nat.le_trans h' h⟩

/-- SQLite `LIMIT` semantics for an integer bind: a negative limit means
no upper bound; a nonnegative limit keeps the first `lim` rows. -/
def sqlLimit (lim : Int) (l : List Event) : List Event :=
  if lim < 0 then l else l.take lim.toNat

/-- `getEvents`: `SELECT * FROM events WHERE hook_id = ?
ORDER BY received_at DESC LIMIT ?` (the bound limit is whatever integer
the route computed, possibly negative). -/
def getEvents (hookId : String) (lim : Int) (db : DB) : List Event :=
  sqlLimit lim ((db.events.filter (fun e => e.hook_id == hookId)).insertionSort recvGE)

/-- `getUndeliveredEvents`: `SELECT * FROM events WHERE hook_id = ? AND
delivered_at IS NULL ORDER BY received_at ASC LIMIT ?`. -/
def getUndeliveredEvents (hookId : String) (lim : Int) (db : DB) : List Event :=
  sqlLimit lim ((db.events.filter (fun e =>
      e.hook_id == hookId ∧ e.delivered_at == none)).insertionSort recvLE)

/-- `deleteOldEvents` (used by `cleanupOldEvents`): bulk delete of events
with `received_at < datetime('now', '-7 days')`; returns `changes`. -/
def deleteOldEvents (cutoff : Nat) (db : DB) : Nat × DB :=
  let events' := db.events.filter (fun e => ¬ e.received_at < cutoff)
  (db.events.length - events'.length, { db with events := events' })

/-! ## Ingestion pipeline (`webhook.ts`) -/

/-- `EXCLUDED_HEADERS` (webhook.ts lines 8-14). -/
def EXCLUDED_HEADERS : List String :=
  ["cookie", "authorization", "x-forwarded-for", "x-real-ip", "cf-connecting-ip"]

/-- `MAX_BODY_SIZE = 100 * 1024` (webhook.ts line 17). -/
def MAX_BODY_SIZE : Nat := 100 * 1024

/-- Hono's `c.req.header(name)`: case-insensitive lookup of a request
header (`name` is given lowercase in the source). -/
def getHeader (headers : List (String × String)) (name : String) : Option String :=
  (headers.find? (fun kv => kv.1.toLower == name)).map (fun kv => kv.2)

/-- JavaScript `a || b` over nullable strings: the empty string is falsy. -/
def jsOr (a b : Option String) : Option String :=
  match a with
  | some s => if s == "" then b else some s
  | none => b

/-- Source-IP resolution (webhook.ts lines 69-72):
`x-forwarded-for` first entry, else `x-real-ip`, else `cf-connecting-ip`,
else null. -/
def resolveSourceIp (headers : List (String × String)) : Option String :=
  jsOr ((getHeader headers "x-forwarded-for").map
      (fun s => ((s.splitOn ",").headD "").trim))
    (jsOr (getHeader headers "x-real-ip") (getHeader headers "cf-connecting-ip"))

/-- Body capture (webhook.ts lines 50-66): only POST/PUT/PATCH carry a
body; a failed body read (`rawBody = none`) leaves it null; a body over
`MAX_BODY_SIZE` is replaced by the truncation marker holding the original
length and the first 1000 characters. -/
def buildBody (method : String) (rawBody : Option String) : Option BodyVal :=
  if method == "POST" ∨ method == "PUT" ∨ method == "PATCH" then
    match rawBody with
    | none => none
    | some rb =>
      if rb.length ≤ MAX_BODY_SIZE then some (.raw rb)
      else some (.truncated rb.length (rb.take 1000))
  else none

/-- The shape `JSON.parse(hook.delivery_config)` is cast to
(webhook.ts lines 126-130). -/
structure DeliveryConfig where
  nostr_pubkey : Option String := none
  nostr_relay : Option String := none
  email : Option String := none
deriving DecidableEq

/-- `deliverEvent` (webhook.ts lines 112-155): no-op without a
delivery_config; parses the config (a parse exception is caught and
logged); the nostr/email branches only log intent; after the attempted
dispatch the event is marked delivered. -/
def deliverEvent (jpCfg : String → Except String DeliveryConfig)
    (hook : Hook) (eventId : String) (now : Nat) (db : DB) : DB :=
  match hook.delivery_config with
  | none => db
  | some cfgStr =>
    match jpCfg cfgStr with
    | .error _ => db
    | .ok _ => markEventsDelivered eventId now db

/-- An inbound request to `ANY /webhook/:id`. -/
structure IngressRequest where
  hookId : String
  method : String
  headers : List (String × String) := []
  query : List (String × String) := []
  rawBody : Option String := none

/-- The ingestion route's JSON response body. -/
structure IngressResponse where
  received : Bool
  event_id : Option String := none
deriving DecidableEq

/-- The Event row built by the ingestion handler (webhook.ts lines
34-84): filtered headers, captured body, query params (null when empty),
resolved source ip. -/
def ingressEvent (eventId : String) (now : Nat) (req : IngressRequest) : Event :=
  { id := eventId, hook_id := req.hookId, method := req.method,
    headers := req.headers.filter
      (fun kv => ¬ EXCLUDED_HEADERS.contains kv.1.toLower),
    body := buildBody req.method req.rawBody,
    query_params := if 0 < req.query.length then some req.query else none,
    source_ip := resolveSourceIp req.headers, received_at := now }

/-- The ingestion handler `webhook.all('/:id')` (webhook.ts lines 20-109).
`storeFails` models the `createEvent` insert throwing, which the
surrounding try/catch turns into a bare `received: true` answer with the
store unchanged. -/
def handleWebhook (jpCfg : String → Except String DeliveryConfig)
    (storeFails : Bool) (eventId : String) (now : Nat)
    (req : IngressRequest) (db : DB) : IngressResponse × DB :=
  match getHook req.hookId db with
  | none => ({ received := true }, db)
  | some hook =>
    if storeFails then ({ received := true }, db)
    else
      let db1 := updateHookTrigger req.hookId now
        (createEvent (ingressEvent eventId now req) db)
      let db2 :=
        if hook.delivery_method ≠ "poll" ∧ hook.delivery_config.isSome then
          deliverEvent jpCfg hook eventId now db1
        else db1
      ({ received := true, event_id := some eventId }, db2)

/-! ## Credential cache and middleware (`auth.ts`) -/

/-- `TokenValidation` (auth.ts lines 10-16). -/
structure TokenValidation where
  valid : Bool
  user_id : Option String := none
  email : Option String := none
  credits : Option Nat := none
  error : Option String := none
deriving DecidableEq

/-- The process-wide token cache: token → (result, expires). -/
abbrev TokenCache : Type := List (String × TokenValidation × Nat)

/-- `TOKEN_CACHE_TTL = 60000` ms (auth.ts line 8). -/
def TOKEN_CACHE_TTL : Nat := 60000

/-- `tokenCache.get`. -/
def cacheGet (cache : TokenCache) (token : String) : Option (TokenValidation × Nat) :=
  (cache.find? (fun e => e.1 == token)).map (fun e => e.2)

/-- `tokenCache.set`: insert or replace the entry for `token`. -/
def cacheSet (cache : TokenCache) (token : String) (r : TokenValidation)
    (expires : Nat) : TokenCache :=
  (token, r, expires) :: cache.filter (fun e => ¬ e.1 == token)

/-- The cache-miss path of `verifyToken` (auth.ts lines 37-66):
`fetchResult` is the outcome of the call to the external authority
(`.error` models a transport exception, caught by the handler). The third
component records whether the authority was called. -/
def verifyFetch (fetchResult : Except String TokenValidation) (now : Nat)
    (cache : TokenCache) (token : String) :
    TokenValidation × TokenCache × Bool :=
  match fetchResult with
  | .error _ =>
    ({ valid := false, error := some "Authentication service unavailable" },
      cache, true)
  | .ok data =>
    (data,
      if data.valid then cacheSet cache token data (now + TOKEN_CACHE_TTL)
      else cache, true)

/-- `verifyToken` (auth.ts lines 26-67). -/
def verifyToken (fetchResult : Except String TokenValidation) (now : Nat)
    (cache : TokenCache) (token : String) :
    TokenValidation × TokenCache × Bool :=
  if token == "" then
    ({ valid := false, error := some "No token provided" }, cache, false)
  else
    match cacheGet cache token with
    | some (r, expires) =>
      if now < expires then (r, cache, false)
      else verifyFetch fetchResult now cache token
    | none => verifyFetch fetchResult now cache token

/-- JavaScript `String.prototype.startsWith(pre)`: the first
`pre.length` characters equal `pre`. -/
def jsStartsWith (s pre : String) : Bool := s.take pre.length == pre

/-- `AuthContext` (auth.ts lines 18-23, set at lines 117-122). -/
structure AuthContext where
  token : String
  userId : Option String := none
  email : Option String := none
  credits : Nat := 0
deriving DecidableEq

/-- Outcome of the auth middleware: an early JSON error response with a
status code, or proceeding to the route handler with an auth context. -/
inductive AuthOutcome where
  | reject : Nat → String → AuthOutcome
  | proceed : AuthContext → AuthOutcome
deriving DecidableEq

/-- `authMiddleware` (auth.ts lines 94-125). -/
def authMiddleware (fetchResult : Except String TokenValidation) (now : Nat)
    (cache : TokenCache) (authHeader : Option String) :
    AuthOutcome × TokenCache :=
  match authHeader with
  | none => (.reject 401 "Missing or invalid Authorization header", cache)
  | some h =>
    if ¬ jsStartsWith h "Bearer " then
      (.reject 401 "Missing or invalid Authorization header", cache)
    else
      let token := h.drop 7
      if token == "" then (.reject 401 "API token required", cache)
      else
        let res := verifyToken fetchResult now cache token
        if res.1.valid then
          (.proceed { token := token,
                      userId := res.1.user_id,
                      email := res.1.email,
                      credits := res.1.credits.getD 0 }, res.2.1)
        else (.reject 401 (res.1.error.getD "Invalid token"), res.2.1)

/-! ## Control-plane routes (`hooks.ts`) -/

/-- Outcome of `hooks.get('/:id')` (status-relevant part). -/
inductive GetHookResult where
  | notFound : GetHookResult
  | forbidden : GetHookResult
  | ok : Hook → GetHookResult
deriving DecidableEq

/-- `hooks.get('/:id')` (hooks.ts): 404 when the id does not exist, 403
when it exists but belongs to another token, else the hook. -/
def getHookRoute (db : DB) (authToken hookId : String) : GetHookResult :=
  match getHook hookId db with
  | none => .notFound
  | some hook =>
    if ¬ hook.api_key == authToken then .forbidden else .ok hook

/-- Outcome of `hooks.delete('/:id')`. -/
inductive DeleteHookResult where
  | notFound : DeleteHookResult
  | success : DeleteHookResult
deriving DecidableEq

/-- `hooks.delete('/:id')`: a compound id+owner delete; zero changed rows
answers 404, never 403. -/
def deleteHookRoute (db : DB) (authToken hookId : String) :
    DeleteHookResult × DB :=
  let res := deleteHook hookId authToken db
  if res.1 = 0 then (.notFound, res.2) else (.success, res.2)

/-- `tryParseJson` (hooks.ts): parsed JSON, else the original string. -/
def tryParseJson (jp : String → Except String JsonVal) (s : String) :
    JsonVal ⊕ String :=
  match jp s with
  | .ok v => .inl v
  | .error _ => .inr s

/-- The `body` field of a polled event as serialized to the client: the
stored text run through `tryParseJson`; a truncation marker parses back to
its object form. -/
def renderBody (jp : String → Except String JsonVal) :
    Option BodyVal → Option (JsonVal ⊕ String)
  | none => none
  | some (.raw s) => some (tryParseJson jp s)
  | some (.truncated n p) =>
    some (.inl (.jobj
      [("_truncated", .jbool true), ("_original_size", .jnum n),
        ("_preview", .jstr p)]))

/-- One event as serialized by the poll route (hooks.ts lines 296-305). -/
structure EventOut where
  id : String
  method : String
  headers : List (String × String)
  body : Option (JsonVal ⊕ String)
  query_params : Option (List (String × String))
  source_ip : Option String
  received_at : Nat
  delivered_at : Option Nat

/-- Serialize one stored event for the poll response. -/
def renderEvent (jp : String → Except String JsonVal) (ev : Event) : EventOut :=
  { id := ev.id, method := ev.method, headers := ev.headers,
    body := renderBody jp ev.body, query_params := ev.query_params,
    source_ip := ev.source_ip, received_at := ev.received_at,
    delivered_at := ev.delivered_at }

/-- A JavaScript number as produced by `parseInt`: an integer, or `NaN`
when the text has no leading digits. -/
inductive JsNumber where
  | nan : JsNumber
  | int : Int → JsNumber
deriving DecidableEq

/-- Query parameters of `GET /hooks/:id/events` after parsing:
`limit` is the `parseInt` outcome of the limit parameter (`none` when the
parameter is absent or empty, so the `|| '50'` fallback applies; the
outcome can be negative or NaN), `undelivered === 'true'`,
`mark_delivered !== 'false'`. -/
structure PollQuery where
  limit : Option JsNumber := none
  undelivered : Bool := false
  mark_delivered : Bool := true

/-- `Math.min(parseInt(limit || '50'), 100)`: an absent/empty parameter
parses as 50; `Math.min` caps only from above and propagates `NaN`. -/
def effectiveLimit (q : PollQuery) : JsNumber :=
  match q.limit.getD (.int 50) with
  | .nan => .nan
  | .int i => .int (min i 100)

/-- Outcome of the poll route; `serverError` is the catch-all 500 branch
(reached e.g. when a NaN limit is rejected by the storage layer: SQLite
reports a datatype mismatch for a non-integer `LIMIT`). -/
inductive PollResult where
  | notFound : PollResult
  | forbidden : PollResult
  | serverError : PollResult
  | ok : List EventOut → Nat → Bool → PollResult

/-- Events of an `ok` poll result. -/
def PollResult.eventsOf : PollResult → List EventOut
  | .ok es _ _ => es
  | _ => []

/-- `count` of an `ok` poll result. -/
def PollResult.countOf : PollResult → Nat
  | .ok _ n _ => n
  | _ => 0

/-- `has_more` of an `ok` poll result. -/
def PollResult.hasMoreOf : PollResult → Bool
  | .ok _ _ b => b
  | _ => false

/-- Whether a poll result is the 200 branch. -/
def PollResult.isOk : PollResult → Bool
  | .ok _ _ _ => true
  | _ => false

/-- The marking loop of the poll route (hooks.ts lines 287-293): for each
fetched event whose snapshot `delivered_at` is null, run
`markEventsDelivered`. -/
def markLoop (fetched : List Event) (now : Nat) (db : DB) : DB :=
  fetched.foldl
    (fun acc ev =>
      if ev.delivered_at == none then markEventsDelivered ev.id now acc
      else acc)
    db

/-- `hooks.get('/:id/events')` (hooks.ts lines 262-313): ownership check,
fetch (undelivered-only asc, else all desc, limited), then mark the
fetched-undelivered events delivered when requested; the response is
rendered from the pre-marking snapshot. -/
def pollEventsRoute (jp : String → Except String JsonVal) (db : DB)
    (authToken hookId : String) (q : PollQuery) (now : Nat) :
    PollResult × DB :=
  match getHook hookId db with
  | none => (.notFound, db)
  | some hook =>
    if ¬ hook.api_key == authToken then (.forbidden, db)
    else
      match effectiveLimit q with
      | .nan => (.serverError, db)
      | .int lim =>
        let events :=
          if q.undelivered then getUndeliveredEvents hookId lim db
          else getEvents hookId lim db
        let db' :=
          if q.mark_delivered ∧ 0 < events.length then markLoop events now db
          else db
        (.ok (events.map (renderEvent jp)) events.length
          (decide ((events.length : Int) = lim)), db')

/-! ## Concrete fixtures for evaluating the model on closed inputs -/

/-- A poll-mode hook owned by token `tokA`. -/
def hookA : Hook := { id := "hook00000001", api_key := "tokA" }

/-- A nostr-mode hook with a delivery config. -/
def hookN : Hook :=
  { id := "hookN0000001", api_key := "tokA", delivery_method := "nostr",
    delivery_config := some "cfgjson" }

/-- Store holding just `hookA`. -/
def db0 : DB := { hooks := [hookA] }

/-- A POST of the JSON text `[1]` to `hookA`'s endpoint. -/
def req0 : IngressRequest :=
  { hookId := "hook00000001", method := "POST", rawBody := some "[1]" }

/-- A JSON-parser oracle that recognizes exactly the text `[1]`. -/
def jp0 : String → Except String JsonVal := fun s =>
  if s == "[1]" then .ok (.jarr [.jnum 1]) else .error "invalid"

/-- A delivery-config parser oracle that always throws. -/
def jpc0 : String → Except String DeliveryConfig := fun _ => .error "bad json"

/-- A delivery-config parser oracle that always succeeds. -/
def jpcOK : String → Except String DeliveryConfig := fun _ => .ok {}

/-- A 16-character event id, as produced by `nanoid(16)`. -/
def eid16 : String := "e000000000000001"

/-- The store after ingesting `req0` into `db0` at time 10. -/
def dbRT : DB := (handleWebhook jpc0 false eid16 10 req0 db0).2

/-- Undelivered event received at time 1. -/
def evU1 : Event := { id := "ev1", hook_id := "hook00000001", method := "POST", received_at := 1 }

/-- Undelivered event received at time 2. -/
def evU2 : Event := { id := "ev2", hook_id := "hook00000001", method := "POST", received_at := 2 }

/-- Already-delivered event received at time 3. -/
def evD3 : Event :=
  { id := "ev3", hook_id := "hook00000001", method := "POST", received_at := 3,
    delivered_at := some 5 }

/-- A store with a mix of delivered and undelivered events for `hookA`. -/
def dbPoll : DB := { hooks := [hookA], events := [evD3, evU1, evU2] }

/-- A positive (valid) verification result. -/
def rOK : TokenValidation := { valid := true, user_id := some "u1" }

/-- A negative (invalid) verification result. -/
def rBad : TokenValidation := { valid := false, error := some "Invalid token" }

/-- A string one character over the body-size ceiling. -/
def bigS : String := String.mk (List.replicate (MAX_BODY_SIZE + 1) 'a')

/-- A POST of `bigS` to `hookA`'s endpoint. -/
def reqBig : IngressRequest :=
  { hookId := "hook00000001", method := "POST", rawBody := some bigS }

/-- 101 undelivered events for `hookA`, received at times 0..100. -/
def manyEvents : List Event :=
  (List.range 101).map (fun i =>
    { id := "e" ++ toString i, hook_id := "hook00000001", method := "POST",
      received_at := i })

/-- A store holding `hookA` and its 101 events. -/
def dbMany : DB := { hooks := [hookA], events := manyEvents }

/-! ## Helper lemmas -/

/-- `sqlLimit` returns a sublist of its input in both branches. -/
theorem sqlLimit_sublist (lim : Int) (l : List Event) :
    List.Sublist (sqlLimit lim l) l := by
  unfold sqlLimit
  by_cases h : lim < 0
  · rw [if_pos h]
  · rw [if_neg h]
    exact List.take_sublist ..

/-- Row count under SQLite `LIMIT`: everything for a negative limit,
else at most the limit. -/
theorem length_sqlLimit (lim : Int) (l : List Event) :
    (sqlLimit lim l).length
      = if lim < 0 then l.length else min lim.toNat l.length := by
  unfold sqlLimit
  by_cases h : lim < 0
  · rw [if_pos h, if_pos h]
  · rw [if_neg h, if_neg h, List.length_take]

/-- Events returned by `getEvents` come from the store and belong to the
requested hook. -/
theorem mem_of_mem_getEvents {hookId : String} {lim : Int} {db : DB} {ev : Event}
    (h : ev ∈ getEvents hookId lim db) : ev ∈ db.events ∧ ev.hook_id = hookId := by
  have h1 : ev ∈ (db.events.filter (fun e => e.hook_id == hookId)).insertionSort recvGE :=
    (sqlLimit_sublist ..).subset h
  have h2 : ev ∈ db.events.filter (fun e => e.hook_id == hookId) :=
    (List.perm_insertionSort recvGE _).mem_iff.mp h1
  have h3 := List.mem_filter.mp h2
  exact ⟨h3.1, by simpa using h3.2⟩

/-- Events returned by `getUndeliveredEvents` come from the store, belong
to the requested hook, and are undelivered. -/
theorem mem_of_mem_getUndeliveredEvents {hookId : String} {lim : Int} {db : DB} {ev : Event}
    (h : ev ∈ getUndeliveredEvents hookId lim db) :
    ev ∈ db.events ∧ ev.hook_id = hookId ∧ ev.delivered_at = none := by
  have h1 : ev ∈ (db.events.filter
      (fun e => e.hook_id == hookId ∧ e.delivered_at == none)).insertionSort recvLE :=
    (sqlLimit_sublist ..).subset h
  have h2 : ev ∈ db.events.filter
      (fun e => e.hook_id == hookId ∧ e.delivered_at == none) :=
    (List.perm_insertionSort recvLE _).mem_iff.mp h1
  have h3 := List.mem_filter.mp h2
  have h4 : ev.hook_id = hookId ∧ ev.delivered_at = none := by simpa using h3.2
  exact ⟨h3.1, h4⟩

/-- `markEventsDelivered` is an in-place update: the event count is
unchanged. -/
theorem length_markEventsDelivered (eventId : String) (now : Nat) (db : DB) :
    (markEventsDelivered eventId now db).events.length = db.events.length := by
  simp [markEventsDelivered]

/-- The poll route's marking loop never inserts or removes rows. -/
theorem length_markLoop (fetched : List Event) (now : Nat) (db : DB) :
    (markLoop fetched now db).events.length = db.events.length := by
  induction fetched generalizing db with
  | nil => rfl
  | cons ev rest ih =>
    show (markLoop rest now
        (if ev.delivered_at == none then markEventsDelivered ev.id now db else db)).events.length
      = db.events.length
    by_cases h : (ev.delivered_at == none) = true
    · rw [if_pos h, ih, length_markEventsDelivered]
    · rw [if_neg h, ih]

/-- An event not targeted by `markEventsDelivered` survives unchanged. -/
theorem mem_markEventsDelivered_of_ne {e : Event} {eventId : String} {now : Nat} {db : DB}
    (hmem : e ∈ db.events) (hne : e.id ≠ eventId) :
    e ∈ (markEventsDelivered eventId now db).events := by
  refine List.mem_map.mpr ⟨e, hmem, ?_⟩
  simp [hne]

/-- An event whose id is hit by none of the marking-loop updates survives
the loop unchanged. -/
theorem mem_markLoop {e : Event} {fetched : List Event} {now : Nat} {db : DB}
    (hmem : e ∈ db.events)
    (hids : ∀ ev ∈ fetched, ev.delivered_at = none → ev.id ≠ e.id) :
    e ∈ (markLoop fetched now db).events := by
  induction fetched generalizing db with
  | nil => exact hmem
  | cons ev rest ih =>
    show e ∈ (markLoop rest now
        (if ev.delivered_at == none then markEventsDelivered ev.id now db else db)).events
    refine ih ?_ (fun ev' h' hd' => hids ev' (List.mem_cons_of_mem _ h') hd')
    by_cases h : (ev.delivered_at == none) = true
    · rw [if_pos h]
      have hne : ev.id ≠ e.id := hids ev (List.mem_cons_self ..) (by simpa using h)
      exact mem_markEventsDelivered_of_ne hmem (fun hh => hne hh.symm)
    · rwa [if_neg h]

/-! ## C1 -/

/-- C1 counterexample: `markEventsDelivered` is an unconditional
`UPDATE ... SET delivered_at = datetime('now')`; calling it twice on the
same event at times 1 and 2 leaves `delivered_at = 2`, not the value 1 set
by the first call, so the null-to-timestamp transition is not
at-most-once at the statement level. -/
theorem c1_counterexample :
    (markEventsDelivered "e1" 1
        { events := [{ id := "e1", hook_id := "h", method := "GET" }] }).events.map
        (fun e => e.delivered_at) = [some 1]
    ∧ (markEventsDelivered "e1" 2 (markEventsDelivered "e1" 1
        { events := [{ id := "e1", hook_id := "h", method := "GET" }] })).events.map
        (fun e => e.delivered_at) = [some 2]
    ∧ some (2 : Nat) ≠ some 1 := by
  refine ⟨rfl, rfl, by decide⟩

/-- C1 (amended): `markEventsDelivered` is repeatable without error, but
the second call overwrites `delivered_at` with its own timestamp: the
composite of two calls equals a single call at the second time (so the
value equals the first call's only when both calls observe the same
clock); the at-most-once transition is enforced by the callers, which
invoke the statement only on events with null `delivered_at`. -/
theorem c1_mark_delivered_last_write_wins (db : DB) (eventId : String) (t₁ t₂ : Nat) :
    markEventsDelivered eventId t₂ (markEventsDelivered eventId t₁ db)
      = markEventsDelivered eventId t₂ db := by
  simp only [markEventsDelivered, List.map_map]
  congr 1
  apply List.map_congr_left
  intro ev _
  by_cases h : (ev.id == eventId) = true
  · simp [Function.comp, h]
  · simp [Function.comp, h]

/-! ## C2 -/

/-- C2: the ingestion route always answers `received: true`; an unknown
hook id yields the bare acknowledgment with no event id and leaves the
store untouched (zero Event rows created); a successful store answers
with the new event's id. -/
theorem c2_ingest_always_succeeds (jpCfg : String → Except String DeliveryConfig)
    (storeFails : Bool) (eventId : String) (now : Nat) (req : IngressRequest) (db : DB) :
    (handleWebhook jpCfg storeFails eventId now req db).1.received = true
    ∧ (getHook req.hookId db = none →
        handleWebhook jpCfg storeFails eventId now req db
          = ({ received := true, event_id := none }, db))
    ∧ (∀ hook, getHook req.hookId db = some hook → storeFails = false →
        (handleWebhook jpCfg storeFails eventId now req db).1
          = { received := true, event_id := some eventId })
    ∧ (∀ hook, getHook req.hookId db = some hook → storeFails = true →
        handleWebhook jpCfg storeFails eventId now req db
          = ({ received := true, event_id := none }, db)) := by
  refine ⟨?_, ?_, ?_, ?_⟩
  · rcases hg : getHook req.hookId db with _ | hook
    · simp [handleWebhook, hg]
    · rcases storeFails <;> simp [handleWebhook, hg]
  · intro hg
    simp [handleWebhook, hg]
  · intro hook hg hs
    subst hs
    simp [handleWebhook, hg]
  · intro hook hg hs
    subst hs
    simp [handleWebhook, hg]

/-- C2 witness: ingesting to the unknown id `nope` answers the bare
acknowledgment and stores nothing; ingesting to `hookA` answers with the
new event id. -/
theorem c2_witness :
    handleWebhook jpc0 false eid16 10 { hookId := "nope", method := "GET" } db0
      = ({ received := true, event_id := none }, db0)
    ∧ (handleWebhook jpc0 false eid16 10 req0 db0).1
      = { received := true, event_id := some eid16 } := by
  have h1 := c2_ingest_always_succeeds jpc0 false eid16 10
    { hookId := "nope", method := "GET" } db0
  have h2 := c2_ingest_always_succeeds jpc0 false eid16 10 req0 db0
  exact ⟨h1.2.1 rfl, h2.2.2.1 hookA rfl rfl⟩

/-! ## C3 -/

/-- C3: a non-owner `GET /hooks/:id` on an existing hook answers
Forbidden, while a non-owner `DELETE /hooks/:id` answers NotFound (the
delete route's outcome type has no Forbidden at all: the compound
owner+id match makes a non-owner delete match zero rows); `GET` on a
nonexistent id answers NotFound. -/
theorem c3_get_delete_asymmetry (db : DB) (hook : Hook) (otherToken hookId : String)
    (hfind : getHook hookId db = some hook)
    (hmismatch : hook.api_key ≠ otherToken)
    (huniq : ∀ h ∈ db.hooks, h.id = hookId → h.api_key = hook.api_key) :
    getHookRoute db otherToken hookId = .forbidden
    ∧ (deleteHookRoute db otherToken hookId).1 = .notFound
    ∧ (∀ (db₂ : DB) (id₂ : String), getHook id₂ db₂ = none →
        getHookRoute db₂ otherToken id₂ = .notFound) := by
  have hb : (hook.api_key == otherToken) = false := by simpa using hmismatch
  have hfilter : db.hooks.filter
      (fun h => ¬ (h.id == hookId ∧ h.api_key == otherToken)) = db.hooks := by
    apply List.filter_eq_self.mpr
    intro h hmem
    simp only [decide_eq_true_eq, not_and, beq_iff_eq]
    intro h1 h2
    exact hmismatch ((huniq h hmem h1).symm.trans h2)
  refine ⟨?_, ?_, ?_⟩
  · simp [getHookRoute, hfind, hb]
  · simp only [deleteHookRoute, deleteHook]
    rw [hfilter]
    simp
  · intro db₂ id₂ hnone
    simp [getHookRoute, hnone]

/-- C3 witness: token `tokB` against `hookA` (owned by `tokA`). -/
theorem c3_witness :
    getHookRoute db0 "tokB" "hook00000001" = .forbidden
    ∧ (deleteHookRoute db0 "tokB" "hook00000001").1 = .notFound
    ∧ getHookRoute db0 "tokB" "missing" = .notFound := by
  have h := c3_get_delete_asymmetry db0 hookA "tokB" "hook00000001" rfl
    (by decide) (by decide)
  exact ⟨h.1, h.2.1, h.2.2 db0 "missing" rfl⟩

/-! ## C5 -/

/-- When the hook exists and the insert succeeds, the new event row is in
the store, carrying exactly the body produced by the body-capture step
(whatever the delivery dispatcher then does to `delivered_at`). -/
theorem handleWebhook_stores (jpCfg : String → Except String DeliveryConfig)
    (eventId : String) (now : Nat) (req : IngressRequest) (db : DB) (hook : Hook)
    (hfind : getHook req.hookId db = some hook) :
    ∃ ev ∈ ((handleWebhook jpCfg false eventId now req db).2).events,
      ev.id = eventId ∧ ev.body = buildBody req.method req.rawBody := by
  have hmem1 : ingressEvent eventId now req ∈
      (updateHookTrigger req.hookId now
        (createEvent (ingressEvent eventId now req) db)).events :=
    List.mem_append_right _ (List.mem_cons_self _ _)
  simp only [handleWebhook, hfind]
  by_cases hc : hook.delivery_method ≠ "poll" ∧ hook.delivery_config.isSome
  · rw [if_pos hc]
    rcases hcfg : hook.delivery_config with _ | cfgStr
    · rw [hcfg] at hc
      simp at hc
    · simp only [deliverEvent, hcfg]
      rcases hp : jpCfg cfgStr with msg | cfg
      · exact ⟨ingressEvent eventId now req, hmem1, rfl, rfl⟩
      · refine ⟨{ ingressEvent eventId now req with delivered_at := some now },
          ?_, rfl, rfl⟩
        refine List.mem_map.mpr ⟨ingressEvent eventId now req, hmem1, ?_⟩
        simp [ingressEvent]
  · rw [if_neg hc]
    exact ⟨ingressEvent eventId now req, hmem1, rfl, rfl⟩

/-- C5: for POST/PUT/PATCH bodies over the 100 KB ceiling the stored
`Event.body` is the truncation marker whose `_original_size` is the
original body's length and whose preview is its 1000-character prefix —
never the raw oversized body; bodies at or under the ceiling are stored
verbatim. -/
theorem c5_truncation (jpCfg : String → Except String DeliveryConfig)
    (eventId : String) (now : Nat) (req : IngressRequest) (db : DB) (hook : Hook)
    (s : String)
    (hfind : getHook req.hookId db = some hook)
    (hmethod : req.method = "POST" ∨ req.method = "PUT" ∨ req.method = "PATCH")
    (hbody : req.rawBody = some s) :
    (MAX_BODY_SIZE < s.length →
      buildBody req.method req.rawBody
          = some (.truncated s.length (s.take 1000))
      ∧ buildBody req.method req.rawBody ≠ some (.raw s)
      ∧ ∃ ev ∈ ((handleWebhook jpCfg false eventId now req db).2).events,
          ev.id = eventId ∧ ev.body = some (.truncated s.length (s.take 1000)))
    ∧ (s.length ≤ MAX_BODY_SIZE →
      buildBody req.method req.rawBody = some (.raw s)
      ∧ ∃ ev ∈ ((handleWebhook jpCfg false eventId now req db).2).events,
          ev.id = eventId ∧ ev.body = some (.raw s)) := by
  have hm : (req.method == "POST" ∨ req.method == "PUT" ∨ req.method == "PATCH") := by
    rcases hmethod with h | h | h <;> simp [h]
  constructor
  · intro hlen
    have hbb : buildBody req.method req.rawBody
        = some (.truncated s.length (s.take 1000)) := by
      rw [hbody, buildBody, if_pos hm, if_neg (by omega)]
    refine ⟨hbb, by simp [hbb], ?_⟩
    obtain ⟨ev, hmem, hid, hb⟩ := handleWebhook_stores jpCfg eventId now req db hook hfind
    exact ⟨ev, hmem, hid, hb.trans hbb⟩
  · intro hlen
    have hbb : buildBody req.method req.rawBody = some (.raw s) := by
      rw [hbody, buildBody, if_pos hm, if_pos hlen]
    refine ⟨hbb, ?_⟩
    obtain ⟨ev, hmem, hid, hb⟩ := handleWebhook_stores jpCfg eventId now req db hook hfind
    exact ⟨ev, hmem, hid, hb.trans hbb⟩

/-- The fixture string `bigS` is one character over the ceiling. -/
theorem bigS_length : bigS.length = MAX_BODY_SIZE + 1 := by
  simp [bigS, String.length]

/-- C5 witness: an oversized body is replaced by the marker; the small
body `[1]` is stored verbatim. -/
theorem c5_witness :
    buildBody "POST" (some bigS)
      = some (.truncated bigS.length (bigS.take 1000))
    ∧ buildBody "POST" (some "[1]") = some (.raw "[1]") := by
  have h1 := (c5_truncation jpc0 eid16 10 reqBig db0 hookA bigS rfl
    (Or.inl rfl) rfl).1 (by rw [bigS_length]; omega)
  have h2 := (c5_truncation jpc0 eid16 10 req0 db0 hookA "[1]" rfl
    (Or.inl rfl) rfl).2 (by decide)
  exact ⟨h1.1, h2.1⟩

/-! ## C6 -/

/-- C6: after a successful (valid) verification, a verification of the
same token within the freshness window answers the cached result with no
authority call, for any state of the network; a negative (invalid) result
is never written to the cache, so a fixed invalid token reaches the
authority on every verification. -/
theorem c6_cache_positive_only (fetchResult : Except String TokenValidation)
    (t₀ now now₂ : Nat) (cache₀ : TokenCache) (token : String)
    (rv d : TokenValidation)
    (hne : token ≠ "") (hmiss : cacheGet cache₀ token = none)
    (hvalid : rv.valid = true) (hinvalid : d.valid = false)
    (hfresh : now < t₀ + TOKEN_CACHE_TTL) :
    verifyToken fetchResult now ((verifyToken (.ok rv) t₀ cache₀ token).2.1) token
      = (rv, (verifyToken (.ok rv) t₀ cache₀ token).2.1, false)
    ∧ verifyToken (.ok d) now cache₀ token = (d, cache₀, true)
    ∧ verifyToken (.ok d) now₂ cache₀ token = (d, cache₀, true) := by
  have hbe : (token == "") = false := by simpa using hne
  have hstep : verifyToken (.ok rv) t₀ cache₀ token
      = (rv, cacheSet cache₀ token rv (t₀ + TOKEN_CACHE_TTL), true) := by
    simp [verifyToken, hbe, hmiss, verifyFetch, hvalid]
  have hget : cacheGet (cacheSet cache₀ token rv (t₀ + TOKEN_CACHE_TTL)) token
      = some (rv, t₀ + TOKEN_CACHE_TTL) := by
    simp [cacheGet, cacheSet]
  refine ⟨?_, ?_, ?_⟩
  · rw [hstep]
    simp [verifyToken, hbe, hget, hfresh]
  · simp [verifyToken, hbe, hmiss, verifyFetch, hinvalid]
  · simp [verifyToken, hbe, hmiss, verifyFetch, hinvalid]

/-- C6 witness: token `t1` verified valid at time 10 is served from cache
at time 50 even while the authority is down; an invalid result at times 5
and 7 leaves the cache empty and calls the authority both times. -/
theorem c6_witness :
    verifyToken (.error "down") 50 ((verifyToken (.ok rOK) 10 [] "t1").2.1) "t1"
      = (rOK, (verifyToken (.ok rOK) 10 [] "t1").2.1, false)
    ∧ verifyToken (.ok rBad) 50 [] "t1" = (rBad, [], true)
    ∧ verifyToken (.ok rBad) 7 [] "t1" = (rBad, [], true) :=
  c6_cache_positive_only (.error "down") 10 50 7 [] "t1" rOK rBad
    (by decide) rfl rfl rfl (by decide)

/-! ## C7 -/

/-- C7: a transport failure contacting the authority yields the synthetic
invalid result with the distinguishing message (no exception propagates:
the verifier is a total function into `TokenValidation`), and the
middleware turns that result into a 401 rejection carrying that message,
not a distinct status. -/
theorem c7_transport_failure (e h token : String) (now : Nat) (cache : TokenCache)
    (hsw : jsStartsWith h "Bearer " = true) (hdrop : h.drop 7 = token)
    (hne : token ≠ "") (hmiss : cacheGet cache token = none) :
    verifyToken (.error e) now cache token
      = ({ valid := false, error := some "Authentication service unavailable" },
          cache, true)
    ∧ authMiddleware (.error e) now cache (some h)
      = (.reject 401 "Authentication service unavailable", cache) := by
  have hbe : (token == "") = false := by simpa using hne
  have h1 : verifyToken (.error e) now cache token
      = ({ valid := false, error := some "Authentication service unavailable" },
          cache, true) := by
    simp [verifyToken, hbe, hmiss, verifyFetch]
  refine ⟨h1, ?_⟩
  simp [authMiddleware, hsw, hdrop, hbe, h1]

/-- C7 witness: a connection failure for token `t1` answers the synthetic
invalid result and the middleware rejects with 401. -/
theorem c7_witness :
    verifyToken (.error "ECONNREFUSED") 5 [] "t1"
      = ({ valid := false, error := some "Authentication service unavailable" },
          [], true)
    ∧ authMiddleware (.error "ECONNREFUSED") 5 [] (some "Bearer t1")
      = (.reject 401 "Authentication service unavailable", []) :=
  c7_transport_failure "ECONNREFUSED" "Bearer t1" "t1" 5 []
    (by decide) (by decide) (by decide) rfl

/-! ## C8 -/

/-- C8: once the dispatcher's config parse succeeds it marks the event
delivered whatever the channel (the nostr/email stubs only log); a parse
exception is caught, leaving the store as is; and the ingestion response
is the same for every dispatch outcome — the success answer with the new
event id whenever the hook exists and the insert succeeded. -/
theorem c8_dispatch_nonfatal (jpCfg jpCfg' : String → Except String DeliveryConfig)
    (hook : Hook) (eventId : String) (now : Nat) (req : IngressRequest) (db : DB) :
    (∀ cfgStr cfg, hook.delivery_config = some cfgStr → jpCfg cfgStr = .ok cfg →
      deliverEvent jpCfg hook eventId now db = markEventsDelivered eventId now db)
    ∧ (∀ cfgStr msg, hook.delivery_config = some cfgStr → jpCfg cfgStr = .error msg →
      deliverEvent jpCfg hook eventId now db = db)
    ∧ (handleWebhook jpCfg false eventId now req db).1
        = (handleWebhook jpCfg' false eventId now req db).1
    ∧ (getHook req.hookId db = some hook →
        (handleWebhook jpCfg false eventId now req db).1
          = { received := true, event_id := some eventId }) := by
  refine ⟨?_, ?_, ?_, ?_⟩
  · intro cfgStr cfg hcfg hp
    simp [deliverEvent, hcfg, hp]
  · intro cfgStr msg hcfg hp
    simp [deliverEvent, hcfg, hp]
  · rcases hg : getHook req.hookId db with _ | hk
    · simp [handleWebhook, hg]
    · simp [handleWebhook, hg]
  · intro hg
    simp [handleWebhook, hg]

/-- C8 witness: with a parsing config the dispatcher marks the event; with
a throwing parser it leaves the store untouched; the ingestion response is
identical under both parsers. -/
theorem c8_witness :
    deliverEvent jpcOK hookN eid16 10 db0 = markEventsDelivered eid16 10 db0
    ∧ deliverEvent jpc0 hookN eid16 10 db0 = db0
    ∧ (handleWebhook jpc0 false eid16 10 req0 db0).1
        = (handleWebhook jpcOK false eid16 10 req0 db0).1 := by
  have h := c8_dispatch_nonfatal jpc0 jpcOK hookN eid16 10 req0 db0
  have h2 := c8_dispatch_nonfatal jpcOK jpc0 hookN eid16 10 req0 db0
  exact ⟨h2.1 "cfgjson" {} rfl rfl, h.2.1 "cfgjson" "bad json" rfl rfl, h.2.2.1⟩

/-! ## C4 -/

/-- `getEvents` output is newest-first. -/
theorem sorted_getEvents (hookId : String) (lim : Int) (db : DB) :
    (getEvents hookId lim db).Sorted recvGE :=
  (List.sorted_insertionSort recvGE _).sublist (sqlLimit_sublist ..)

/-- `getUndeliveredEvents` output is oldest-first. -/
theorem sorted_getUndeliveredEvents (hookId : String) (lim : Int) (db : DB) :
    (getUndeliveredEvents hookId lim db).Sorted recvLE :=
  (List.sorted_insertionSort recvLE _).sublist (sqlLimit_sublist ..)

/-- `getEvents` returns every matching row for a negative limit, else
`min limit (hook's events)` rows. -/
theorem length_getEvents (hookId : String) (lim : Int) (db : DB) :
    (getEvents hookId lim db).length
      = if lim < 0 then (db.events.filter (fun e => e.hook_id == hookId)).length
        else min lim.toNat
          (db.events.filter (fun e => e.hook_id == hookId)).length := by
  simp [getEvents, length_sqlLimit, (List.perm_insertionSort recvGE _).length_eq]

/-- `getUndeliveredEvents` returns every matching row for a negative
limit, else `min limit (hook's undelivered events)` rows. -/
theorem length_getUndeliveredEvents (hookId : String) (lim : Int) (db : DB) :
    (getUndeliveredEvents hookId lim db).length
      = if lim < 0 then (db.events.filter
          (fun e => e.hook_id == hookId ∧ e.delivered_at == none)).length
        else min lim.toNat (db.events.filter
          (fun e => e.hook_id == hookId ∧ e.delivered_at == none)).length := by
  simp [getUndeliveredEvents, length_sqlLimit,
    (List.perm_insertionSort recvLE _).length_eq]

/-- Reduction of the poll route on the owner's undelivered-only query
with an integer limit. -/
theorem pollEventsRoute_undelivered (jp : String → Except String JsonVal)
    (db : DB) (token hookId : String) (q : PollQuery) (now : Nat) (hook : Hook)
    (lim : Int)
    (hfind : getHook hookId db = some hook)
    (hbe : (hook.api_key == token) = true)
    (hu : q.undelivered = true)
    (hlim : effectiveLimit q = .int lim) :
    pollEventsRoute jp db token hookId q now
      = (.ok ((getUndeliveredEvents hookId lim db).map (renderEvent jp))
          (getUndeliveredEvents hookId lim db).length
          (decide (((getUndeliveredEvents hookId lim db).length : Int) = lim)),
        if q.mark_delivered ∧
            0 < (getUndeliveredEvents hookId lim db).length then
          markLoop (getUndeliveredEvents hookId lim db) now db
        else db) := by
  simp [pollEventsRoute, hfind, hbe, hu, hlim]

/-- Reduction of the poll route on the owner's all-events query with an
integer limit. -/
theorem pollEventsRoute_all (jp : String → Except String JsonVal)
    (db : DB) (token hookId : String) (q : PollQuery) (now : Nat) (hook : Hook)
    (lim : Int)
    (hfind : getHook hookId db = some hook)
    (hbe : (hook.api_key == token) = true)
    (hu : q.undelivered = false)
    (hlim : effectiveLimit q = .int lim) :
    pollEventsRoute jp db token hookId q now
      = (.ok ((getEvents hookId lim db).map (renderEvent jp))
          (getEvents hookId lim db).length
          (decide (((getEvents hookId lim db).length : Int) = lim)),
        if q.mark_delivered ∧
            0 < (getEvents hookId lim db).length then
          markLoop (getEvents hookId lim db) now db
        else db) := by
  simp [pollEventsRoute, hfind, hbe, hu, hlim]

/-- C4 counterexample: a poll with `?limit=-1` (`parseInt` yields −1,
`Math.min(-1,100) = -1`, and SQLite treats a negative `LIMIT` as "no
upper bound") returns all 101 of the hook's events — the returned count
exceeds the claimed 100-capped limit. -/
theorem c4_counterexample :
    effectiveLimit (PollQuery.mk (some (.int (-1))) false false) = .int (-1)
    ∧ ((pollEventsRoute jp0 dbMany "tokA" "hook00000001"
        (PollQuery.mk (some (.int (-1))) false false) 20).1).countOf = 101
    ∧ 100 < 101 :=
  ⟨rfl, rfl, by decide⟩

/-- C4 (amended): for the owner's poll whose limit parses to an integer,
the route answers the 200 branch; the count equals the number of
returned events; the capped limit is at most 100 and, when it is
nonnegative, the count never exceeds it — but a negative requested limit
reaches SQLite's `LIMIT`, which imposes no upper bound, so every
matching event is returned; `has_more` holds exactly when the count
equals the capped limit; with `undelivered=true` only null-
`delivered_at` events are returned, oldest first; without it the hook's
events are returned newest first. -/
theorem c4_poll_listing (jp : String → Except String JsonVal) (db : DB)
    (token hookId : String) (q : PollQuery) (now : Nat) (hook : Hook) (lim : Int)
    (hfind : getHook hookId db = some hook) (hown : hook.api_key = token)
    (hlim : effectiveLimit q = .int lim) :
    (pollEventsRoute jp db token hookId q now).1.isOk = true
    ∧ lim ≤ 100
    ∧ (pollEventsRoute jp db token hookId q now).1.countOf
        = (pollEventsRoute jp db token hookId q now).1.eventsOf.length
    ∧ (0 ≤ lim →
        ((pollEventsRoute jp db token hookId q now).1.countOf : Int) ≤ lim)
    ∧ ((pollEventsRoute jp db token hookId q now).1.hasMoreOf = true
        ↔ ((pollEventsRoute jp db token hookId q now).1.countOf : Int) = lim)
    ∧ (q.undelivered = true →
        (∀ o ∈ (pollEventsRoute jp db token hookId q now).1.eventsOf,
          o.delivered_at = none)
        ∧ (pollEventsRoute jp db token hookId q now).1.eventsOf.Sorted
            (fun a b => a.received_at ≤ b.received_at)
        ∧ (pollEventsRoute jp db token hookId q now).1.countOf
            = (if lim < 0 then
                (db.events.filter
                  (fun e => e.hook_id == hookId ∧ e.delivered_at == none)).length
              else min lim.toNat
                (db.events.filter
                  (fun e => e.hook_id == hookId ∧ e.delivered_at == none)).length))
    ∧ (q.undelivered = false →
        (pollEventsRoute jp db token hookId q now).1.eventsOf.Sorted
            (fun a b => b.received_at ≤ a.received_at)
        ∧ (∀ o ∈ (pollEventsRoute jp db token hookId q now).1.eventsOf,
            ∃ ev ∈ db.events, ev.hook_id = hookId ∧ o = renderEvent jp ev)
        ∧ (pollEventsRoute jp db token hookId q now).1.countOf
            = (if lim < 0 then
                (db.events.filter (fun e => e.hook_id == hookId)).length
              else min lim.toNat
                (db.events.filter (fun e => e.hook_id == hookId)).length)) := by
  have hbe : (hook.api_key == token) = true := by simpa using hown
  have hcap : lim ≤ 100 := by
    rcases hq : q.limit.getD (.int 50) with _ | i
    · rw [effectiveLimit, hq] at hlim
      exact absurd hlim (by simp)
    · rw [effectiveLimit, hq] at hlim
      have hl2 : min i 100 = lim := by
        have := hlim
        injection this
      omega
  rcases hu : q.undelivered with _ | _
  · rw [pollEventsRoute_all jp db token hookId q now hook lim hfind hbe hu hlim]
    refine ⟨by rfl, hcap, by simp [PollResult.countOf, PollResult.eventsOf], ?_, ?_, ?_, ?_⟩
    · intro hnn
      simp only [PollResult.countOf, length_getEvents, if_neg (by omega : ¬ lim < 0)]
      have h1 : min lim.toNat
          (db.events.filter (fun e => e.hook_id == hookId)).length ≤ lim.toNat :=
        Nat.min_le_left _ _
      omega
    · simp [PollResult.hasMoreOf, PollResult.countOf]
    · intro h
      exact absurd h (by simp)
    · intro _
      refine ⟨?_, ?_, ?_⟩
      · have hs := sorted_getEvents hookId lim db
        simp only [PollResult.eventsOf]
        rw [List.Sorted, List.pairwise_map]
        exact hs
      · intro o ho
        simp only [PollResult.eventsOf] at ho
        obtain ⟨ev, hev, rfl⟩ := List.mem_map.mp ho
        obtain ⟨h1, h2⟩ := mem_of_mem_getEvents hev
        exact ⟨ev, h1, h2, rfl⟩
      · simp only [PollResult.countOf, length_getEvents]
  · rw [pollEventsRoute_undelivered jp db token hookId q now hook lim hfind hbe hu hlim]
    refine ⟨by rfl, hcap, by simp [PollResult.countOf, PollResult.eventsOf], ?_, ?_, ?_, ?_⟩
    · intro hnn
      simp only [PollResult.countOf, length_getUndeliveredEvents,
        if_neg (by omega : ¬ lim < 0)]
      have h1 : min lim.toNat
          (db.events.filter
            (fun e => e.hook_id == hookId ∧ e.delivered_at == none)).length
          ≤ lim.toNat := Nat.min_le_left _ _
      omega
    · simp [PollResult.hasMoreOf, PollResult.countOf]
    · intro _
      refine ⟨?_, ?_, ?_⟩
      · intro o ho
        simp only [PollResult.eventsOf] at ho
        obtain ⟨ev, hev, rfl⟩ := List.mem_map.mp ho
        exact (mem_of_mem_getUndeliveredEvents hev).2.2
      · have hs := sorted_getUndeliveredEvents hookId lim db
        simp only [PollResult.eventsOf]
        rw [List.Sorted, List.pairwise_map]
        exact hs
      · simp only [PollResult.countOf, length_getUndeliveredEvents]
    · intro h
      exact absurd h (by simp)

/-- C4 witness: the owner polls `dbPoll` for undelivered events with the
default (absent) limit, which parses to the integer 50. -/
theorem c4_witness :
    (pollEventsRoute jp0 dbPoll "tokA" "hook00000001"
        (PollQuery.mk none true true) 20).1.isOk = true
    ∧ ((pollEventsRoute jp0 dbPoll "tokA" "hook00000001"
        (PollQuery.mk none true true) 20).1.countOf : Int) ≤ 50
    ∧ (∀ o ∈ (pollEventsRoute jp0 dbPoll "tokA" "hook00000001"
        (PollQuery.mk none true true) 20).1.eventsOf, o.delivered_at = none) := by
  have h := c4_poll_listing jp0 dbPoll "tokA" "hook00000001"
    (PollQuery.mk none true true) 20 hookA 50 rfl rfl rfl
  exact ⟨h.1, h.2.2.2.1 (by decide), (h.2.2.2.2.2.1 rfl).1⟩

/-! ## C10 -/

/-- C10: the poll route marks only fetched events whose snapshot
`delivered_at` is null; an event that already carries a delivery
timestamp survives any poll (whatever the query parameters) unchanged,
and the poll path never adds or removes rows. Event ids are unique in
the store (`id` is the primary key), which the `Nodup` hypothesis
records. -/
theorem c10_poll_preserves_delivered (jp : String → Except String JsonVal)
    (db : DB) (token hookId : String) (q : PollQuery) (now : Nat)
    (e : Event) (t : Nat)
    (hmem : e ∈ db.events) (hdel : e.delivered_at = some t)
    (hnodup : (db.events.map (fun ev => ev.id)).Nodup) :
    e ∈ ((pollEventsRoute jp db token hookId q now).2).events
    ∧ ((pollEventsRoute jp db token hookId q now).2).events.length
        = db.events.length := by
  have hsafe : ∀ fetched : List Event, (∀ ev ∈ fetched, ev ∈ db.events) →
      e ∈ (markLoop fetched now db).events := by
    intro fetched hsub
    apply mem_markLoop hmem
    intro ev hev hevd hid
    have hee : ev = e := List.inj_on_of_nodup_map hnodup (hsub ev hev) hmem hid
    rw [hee, hdel] at hevd
    exact Option.noConfusion hevd
  rcases hg : getHook hookId db with _ | hook
  · simp only [pollEventsRoute, hg]
    exact ⟨hmem, by simp⟩
  · by_cases hb : (hook.api_key == token) = true
    · rcases hl : effectiveLimit q with _ | lim
      · simp [pollEventsRoute, hg, hb, hl]
        exact hmem
      · rcases hu : q.undelivered with _ | _
        · rw [pollEventsRoute_all jp db token hookId q now hook lim hg hb hu hl]
          by_cases hm : q.mark_delivered ∧
              0 < (getEvents hookId lim db).length
          · rw [if_pos hm]
            exact ⟨hsafe _ (fun ev hev => (mem_of_mem_getEvents hev).1),
              length_markLoop ..⟩
          · rw [if_neg hm]
            exact ⟨hmem, by simp⟩
        · rw [pollEventsRoute_undelivered jp db token hookId q now hook lim hg hb hu hl]
          by_cases hm : q.mark_delivered ∧
              0 < (getUndeliveredEvents hookId lim db).length
          · rw [if_pos hm]
            exact ⟨hsafe _ (fun ev hev => (mem_of_mem_getUndeliveredEvents hev).1),
              length_markLoop ..⟩
          · rw [if_neg hm]
            exact ⟨hmem, by simp⟩
    · have hb' : (¬ (hook.api_key == token) = true) := hb
      simp only [pollEventsRoute, hg, if_pos hb']
      exact ⟨hmem, by simp⟩

/-- C10 witness: `evD3` (delivered at 5) survives a marking poll of
`dbPoll` that marks `ev1` and `ev2`. -/
theorem c10_witness :
    evD3 ∈ ((pollEventsRoute jp0 dbPoll "tokA" "hook00000001"
        (PollQuery.mk none false true) 20).2).events
    ∧ ((pollEventsRoute jp0 dbPoll "tokA" "hook00000001"
        (PollQuery.mk none false true) 20).2).events.length
      = dbPoll.events.length :=
  c10_poll_preserves_delivered jp0 dbPoll "tokA" "hook00000001"
    (PollQuery.mk none false true) 20 evD3 5 (by decide) rfl (by decide)

/-! ## C9 -/

/-- `getHook` after a trigger update: the same lookup, with the matching
hook's trigger statistics refreshed. -/
theorem getHook_updateHookTrigger (hid hid2 : String) (now : Nat) (db : DB) :
    getHook hid (updateHookTrigger hid2 now db)
      = (getHook hid db).map (fun h =>
          if h.id == hid2 then
            { h with last_triggered_at := some now,
                     event_count := h.event_count + 1 }
          else h) := by
  simp only [getHook, updateHookTrigger, List.find?_map]
  congr 2
  funext h
  by_cases hh : (h.id == hid2) = true <;> simp [Function.comp, hh]

/-- C9 counterexample: ingest the JSON text `[1]` into `hookA`'s fresh
store, then issue the first default-parameter poll; it returns exactly
one event but its `delivered_at` field is still null in the response
(the route reads the rows before marking them), refuting the claim that
this poll returns the event with `delivered_at` set. -/
theorem c9_counterexample :
    ((pollEventsRoute jp0 dbRT "tokA" "hook00000001"
        (PollQuery.mk none false true) 20).1).countOf = 1
    ∧ ((pollEventsRoute jp0 dbRT "tokA" "hook00000001"
        (PollQuery.mk none false true) 20).1).eventsOf.map
        (fun o => o.delivered_at) = [none] :=
  ⟨rfl, rfl⟩


/-- Fetching all events of a one-event store owned by the hook returns
that event. -/
theorem getEvents_singleton {hookId : String} {lim : Int} {e : Event} {db : DB}
    (hev : db.events = [e]) (hhid : e.hook_id = hookId) (hl : 1 ≤ lim) :
    getEvents hookId lim db = [e] := by
  unfold getEvents sqlLimit
  rw [hev]
  have hfil : List.filter (fun x => x.hook_id == hookId) [e] = [e] := by
    simp [hhid]
  rw [hfil]
  have hsort : List.insertionSort recvGE [e] = [e] := rfl
  rw [hsort, if_neg (by omega)]
  have h1 : (1 : Nat) ≤ lim.toNat := by omega
  exact List.take_of_length_le (by simpa using h1)

/-- Fetching undelivered events of a one-event store whose event is
already delivered returns nothing. -/
theorem getUndeliveredEvents_none {hookId : String} {lim : Int} {e : Event} {db : DB}
    (hev : db.events = [e]) (hd : e.delivered_at.isSome = true) :
    getUndeliveredEvents hookId lim db = [] := by
  unfold getUndeliveredEvents sqlLimit
  rw [hev]
  rcases hd' : e.delivered_at with _ | t
  · rw [hd'] at hd
    simp at hd
  · simp [List.filter, List.insertionSort, hd']

/-- C9 (amended): POSTing a JSON body under the ceiling to an existing
poll-mode hook with an empty event table answers
`received: true, event_id` (a 16-character id); the first
default-parameter poll returns exactly that event with `body` equal to
the parsed posted JSON, but its `delivered_at` field in the response
reflects the pre-poll value (null) — the route marks after reading; the
marking then lands in the store, so a further `undelivered=true` poll
returns zero events. -/
theorem c9_roundtrip_amended (jp : String → Except String JsonVal)
    (jpCfg : String → Except String DeliveryConfig)
    (db : DB) (hook : Hook) (token hookId eventId s : String) (v : JsonVal)
    (now₁ now₂ now₃ : Nat)
    (hfind : getHook hookId db = some hook)
    (hown : hook.api_key = token)
    (hpoll : hook.delivery_method = "poll")
    (hempty : db.events = [])
    (hlen16 : eventId.length = 16)
    (hjson : jp s = .ok v)
    (hlen : s.length ≤ MAX_BODY_SIZE) :
    (handleWebhook jpCfg false eventId now₁
        { hookId := hookId, method := "POST", rawBody := some s } db).1
      = { received := true, event_id := some eventId }
    ∧ eventId.length = 16
    ∧ (pollEventsRoute jp
        (handleWebhook jpCfg false eventId now₁
          { hookId := hookId, method := "POST", rawBody := some s } db).2
        token hookId (PollQuery.mk none false true) now₂).1.countOf = 1
    ∧ (pollEventsRoute jp
        (handleWebhook jpCfg false eventId now₁
          { hookId := hookId, method := "POST", rawBody := some s } db).2
        token hookId (PollQuery.mk none false true) now₂).1.eventsOf.map
        (fun o => (o.id, o.body, o.delivered_at))
      = [(eventId, some (Sum.inl v), none)]
    ∧ (pollEventsRoute jp
        (pollEventsRoute jp
          (handleWebhook jpCfg false eventId now₁
            { hookId := hookId, method := "POST", rawBody := some s } db).2
          token hookId (PollQuery.mk none false true) now₂).2
        token hookId (PollQuery.mk none true true) now₃).1.eventsOf = []
    ∧ (pollEventsRoute jp
        (pollEventsRoute jp
          (handleWebhook jpCfg false eventId now₁
            { hookId := hookId, method := "POST", rawBody := some s } db).2
          token hookId (PollQuery.mk none false true) now₂).2
        token hookId (PollQuery.mk none true true) now₃).1.countOf = 0 := by
  have hhid : (hook.id == hookId) = true := by
    have hf := hfind
    simp only [getHook] at hf
    have hs := List.find?_some hf
    simpa using hs
  have hhid2 : hook.id = hookId := by simpa using hhid
  have h1 : handleWebhook jpCfg false eventId now₁
      { hookId := hookId, method := "POST", rawBody := some s } db
      = ({ received := true, event_id := some eventId },
         updateHookTrigger hookId now₁
           (createEvent (ingressEvent eventId now₁
             { hookId := hookId, method := "POST", rawBody := some s }) db)) := by
    simp only [handleWebhook, hfind]
    rw [if_neg (by simp), if_neg (by simp [hpoll])]
  have hEhook : (ingressEvent eventId now₁
      { hookId := hookId, method := "POST", rawBody := some s }).hook_id = hookId := rfl
  have hEbody : (ingressEvent eventId now₁
      { hookId := hookId, method := "POST", rawBody := some s }).body
      = some (.raw s) := by
    simp [ingressEvent, buildBody, hlen]
  have hdb1ev : (updateHookTrigger hookId now₁
      (createEvent (ingressEvent eventId now₁
        { hookId := hookId, method := "POST", rawBody := some s }) db)).events
      = [ingressEvent eventId now₁
          { hookId := hookId, method := "POST", rawBody := some s }] := by
    simp [updateHookTrigger, createEvent, hempty]
  have hfind1 : getHook hookId (updateHookTrigger hookId now₁
      (createEvent (ingressEvent eventId now₁
        { hookId := hookId, method := "POST", rawBody := some s }) db))
      = some { hook with last_triggered_at := some now₁, event_count := hook.event_count + 1 } := by
    rw [getHook_updateHookTrigger]
    have hc : getHook hookId (createEvent (ingressEvent eventId now₁
        { hookId := hookId, method := "POST", rawBody := some s }) db)
        = some hook := hfind
    rw [hc]
    simp [hhid2]
  have hbe1 : (({ hook with last_triggered_at := some now₁, event_count := hook.event_count + 1 } : Hook).api_key == token) = true := by
    simpa using hown
  have hget1 : getEvents hookId 50
      (updateHookTrigger hookId now₁
        (createEvent (ingressEvent eventId now₁
          { hookId := hookId, method := "POST", rawBody := some s }) db))
      = [ingressEvent eventId now₁
          { hookId := hookId, method := "POST", rawBody := some s }] :=
    getEvents_singleton hdb1ev hEhook (by decide)
  have hp1 := pollEventsRoute_all jp
    (updateHookTrigger hookId now₁
      (createEvent (ingressEvent eventId now₁
        { hookId := hookId, method := "POST", rawBody := some s }) db))
    token hookId (PollQuery.mk none false true) now₂
    { hook with last_triggered_at := some now₁, event_count := hook.event_count + 1 }
    50 hfind1 hbe1 rfl rfl
  have hmark : (pollEventsRoute jp
      (updateHookTrigger hookId now₁
        (createEvent (ingressEvent eventId now₁
          { hookId := hookId, method := "POST", rawBody := some s }) db))
      token hookId (PollQuery.mk none false true) now₂).2
      = markLoop [ingressEvent eventId now₁
          { hookId := hookId, method := "POST", rawBody := some s }] now₂
        (updateHookTrigger hookId now₁
          (createEvent (ingressEvent eventId now₁
            { hookId := hookId, method := "POST", rawBody := some s }) db)) := by
    rw [hp1]
    simp [hget1]
  have hdb2ev : (markLoop [ingressEvent eventId now₁
      { hookId := hookId, method := "POST", rawBody := some s }] now₂
      (updateHookTrigger hookId now₁
        (createEvent (ingressEvent eventId now₁
          { hookId := hookId, method := "POST", rawBody := some s }) db))).events
      = [{ ingressEvent eventId now₁
            { hookId := hookId, method := "POST", rawBody := some s } with
          delivered_at := some now₂ }] := by
    show (markEventsDelivered eventId now₂
      (updateHookTrigger hookId now₁
        (createEvent (ingressEvent eventId now₁
          { hookId := hookId, method := "POST", rawBody := some s }) db))).events = _
    simp only [markEventsDelivered]
    rw [hdb1ev]
    simp [ingressEvent]
  have hfind2 : getHook hookId (markLoop [ingressEvent eventId now₁
      { hookId := hookId, method := "POST", rawBody := some s }] now₂
      (updateHookTrigger hookId now₁
        (createEvent (ingressEvent eventId now₁
          { hookId := hookId, method := "POST", rawBody := some s }) db)))
      = some { hook with last_triggered_at := some now₁, event_count := hook.event_count + 1 } := hfind1
  have hget2 : getUndeliveredEvents hookId 50
      (markLoop [ingressEvent eventId now₁
        { hookId := hookId, method := "POST", rawBody := some s }] now₂
        (updateHookTrigger hookId now₁
          (createEvent (ingressEvent eventId now₁
            { hookId := hookId, method := "POST", rawBody := some s }) db)))
      = [] :=
    getUndeliveredEvents_none hdb2ev rfl
  have hp2 := pollEventsRoute_undelivered jp
    (markLoop [ingressEvent eventId now₁
      { hookId := hookId, method := "POST", rawBody := some s }] now₂
      (updateHookTrigger hookId now₁
        (createEvent (ingressEvent eventId now₁
          { hookId := hookId, method := "POST", rawBody := some s }) db)))
    token hookId (PollQuery.mk none true true) now₃
    { hook with last_triggered_at := some now₁, event_count := hook.event_count + 1 }
    50 hfind2 hbe1 rfl rfl
  refine ⟨by rw [h1], hlen16, ?_, ?_, ?_, ?_⟩
  · rw [h1]
    simp [hp1, hget1, PollResult.countOf]
  · rw [h1, hp1, hget1]
    simp [PollResult.eventsOf, renderEvent, renderBody, tryParseJson,
      hjson, ingressEvent, buildBody, hlen]
  · rw [h1, hmark]
    simp [hp2, hget2, PollResult.eventsOf]
  · rw [h1, hmark]
    simp [hp2, hget2, PollResult.countOf]

/-- C9 witness: the concrete round trip on `hookA`'s fresh store with
the body `[1]`. -/
theorem c9_witness :
    (handleWebhook jpc0 false eid16 10
        { hookId := "hook00000001", method := "POST", rawBody := some "[1]" } db0).1
      = { received := true, event_id := some eid16 }
    ∧ (pollEventsRoute jp0
        (handleWebhook jpc0 false eid16 10
          { hookId := "hook00000001", method := "POST", rawBody := some "[1]" } db0).2
        "tokA" "hook00000001" (PollQuery.mk none false true) 20).1.countOf = 1
    ∧ (pollEventsRoute jp0
        (pollEventsRoute jp0
          (handleWebhook jpc0 false eid16 10
            { hookId := "hook00000001", method := "POST", rawBody := some "[1]" } db0).2
          "tokA" "hook00000001" (PollQuery.mk none false true) 20).2
        "tokA" "hook00000001" (PollQuery.mk none true true) 30).1.countOf = 0 := by
  have h := c9_roundtrip_amended jp0 jpc0 db0 hookA "tokA" "hook00000001" eid16 "[1]"
    (.jarr [.jnum 1]) 10 20 30 rfl rfl rfl rfl (by decide) rfl (by decide)
  exact ⟨h.1, h.2.2.1, h.2.2.2.2.2⟩

end Klawhook
